import Mathlib

/-!
Verification development for the GitHub profile analyzer's aggregation engine
(src/analysis.py, src/github_analyzer.py, src/utils.py, src/gemini_generator.py,
src/data_exporter.py).  Python strings are modelled as lists of characters
(`PyStr`), Python `int` counters as `Nat`, timestamps as parsed structures
compared through their epoch-second value, Python exceptions as `Except`,
and Python sets as duplicate-free insertion lists (only membership is ever
consumed downstream).
-/

/-- Python `str` modelled as its sequence of characters. -/
abbrev PyStr := List Char

/-- Coerce a Lean string literal to the `PyStr` model. -/
def pystr (s : String) : PyStr := s.toList

/-- Python `s.split(c)` for a single-character separator: splits at every
occurrence, keeping empty chunks, and returns `[""]` on the empty string. -/
def splitOnChar (c : Char) : List Char → List PyStr
  | [] => [[]]
  | x :: xs =>
      let r := splitOnChar c xs
      if x = c then [] :: r
      else
        match r with
        | [] => [[x]]
        | h :: t => (x :: h) :: t

/-- Python `sep.join(xs)`. -/
def pyJoin (sep : PyStr) : List PyStr → PyStr
  | [] => []
  | [t] => t
  | t :: u :: rest => t ++ sep ++ pyJoin sep (u :: rest)

/-- `format_topics` (src/utils.py:46-48): `"|".join(topics) if topics else ""`;
the `None`/empty cases both produce the empty string, which `pyJoin` already
yields on `[]`. -/
def format_topics (topics : List PyStr) : PyStr := pyJoin (pystr "|") topics

/-- Distinct elements of a list in first-seen order (the key order of a Python
`collections.Counter` built from the list). -/
def dedupFS : List PyStr → List PyStr
  | [] => []
  | x :: xs => x :: (dedupFS xs).filter (fun y => y != x)

/-- Stable insertion (descending by `key` under `le`) used to model Python's
stable `sorted(..., reverse=True)` / `Counter.most_common`: the new element
`x`, which precedes the list elements in the original order, is placed before
every element whose key is `≤` its own. -/
def insDescBy {α κ : Type} (le : κ → κ → Bool) (key : α → κ) (x : α) :
    List α → List α
  | [] => [x]
  | y :: ys => if le (key y) (key x) then x :: y :: ys else y :: insDescBy le key x ys

/-- Stable sort, descending by `key` under `le` (insertion formulation). -/
def sortDescBy {α κ : Type} (le : κ → κ → Bool) (key : α → κ) : List α → List α
  | [] => []
  | x :: xs => insDescBy le key x (sortDescBy le key xs)

/-- `Counter(l).most_common(n)`: the distinct elements of `l` paired with their
multiplicities, stably sorted by descending count (ties keep first-seen order),
truncated to `n` entries. -/
def mostCommon (n : Nat) (l : List PyStr) : List (PyStr × Nat) :=
  (sortDescBy (fun a b => decide (a ≤ b)) Prod.snd
      ((dedupFS l).map (fun k => (k, l.count k)))).take n

/-- Python string `<=` (code-point lexicographic), used by `list.sort(key=...)`
on `updated_at` strings. -/
def pyStrLe : PyStr → PyStr → Bool
  | [], _ => true
  | _ :: _, [] => false
  | a :: s, b :: t => if a < b then true else if b < a then false else pyStrLe s t

/-- Python's truthiness test for a string: non-empty. -/
def pyTruthy (s : PyStr) : Bool := !s.isEmpty

/-- Lower-casing, for the case-insensitive keyword match of
`extract_repo_insights`. -/
def lowerStr (s : PyStr) : PyStr := s.map Char.toLower

/-- `startsWithStr pat s` holds when `pat` is a prefix of `s`. -/
def startsWithStr : PyStr → PyStr → Bool
  | [], _ => true
  | _ :: _, [] => false
  | a :: p, b :: s => a = b && startsWithStr p s

/-- Python `pat in s` (substring containment). -/
def containsSub (pat : PyStr) : PyStr → Bool
  | [] => startsWithStr pat []
  | x :: rest => startsWithStr pat (x :: rest) || containsSub pat rest

/-- Decimal rendering of a `Nat`, as Python's string interpolation of a
non-negative `int` produces. -/
def pyOfNat (n : Nat) : PyStr := (toString n).toList

/- ## Datetime model

Timestamps are parsed from the single format `"%Y-%m-%dT%H:%M:%SZ"` used
throughout the source.  A parsed datetime is compared by converting it to
seconds since the Unix epoch (civil-from-days algorithm); for valid dates this
agrees with Python's field-lexicographic `datetime` comparison. -/

/-- A parsed `datetime` value. -/
structure DT where
  year : Nat
  month : Nat
  day : Nat
  hour : Nat
  minute : Nat
  second : Nat
deriving DecidableEq

/-- Gregorian leap-year rule. -/
def isLeap (y : Nat) : Bool := y % 4 = 0 && (y % 100 != 0 || y % 400 = 0)

/-- Days in a month, as `datetime` validates them. -/
def daysInMonth (y m : Nat) : Nat :=
  if m = 2 then (if isLeap y then 29 else 28)
  else if m = 4 ∨ m = 6 ∨ m = 9 ∨ m = 11 then 30
  else 31

/-- Digit run to `Nat`, failing on the empty string or any non-digit. -/
def digitsToNat : PyStr → Option Nat
  | [] => none
  | s =>
      if s.all Char.isDigit then
        some (s.foldl (fun a c => a * 10 + (c.toNat - '0'.toNat)) 0)
      else none

/-- A digit field of bounded width, as `strptime` consumes it. -/
def parseField (maxWidth : Nat) (s : PyStr) : Option Nat :=
  if s.length ≤ maxWidth then digitsToNat s else none

/-- `datetime.strptime(s, "%Y-%m-%dT%H:%M:%SZ")` (the only format the source
uses), returning `none` where Python raises `ValueError`.  Field widths and
calendar validity (month 1-12, day against the month length, time ranges) are
checked as `strptime` does. -/
def strptimeZ (s : PyStr) : Option DT :=
  match splitOnChar 'T' s with
  | [datePart, timePart] =>
      (match splitOnChar '-' datePart, timePart.reverse with
       | [ys, ms, ds], 'Z' :: revTime =>
           (match splitOnChar ':' revTime.reverse with
            | [hs, mis, ss] =>
                (match parseField 4 ys, parseField 2 ms, parseField 2 ds,
                       parseField 2 hs, parseField 2 mis, parseField 2 ss with
                 | some y, some mo, some d, some h, some mi, some sec =>
                     if 1 ≤ mo ∧ mo ≤ 12 ∧ 1 ≤ d ∧ d ≤ daysInMonth y mo ∧
                        h ≤ 23 ∧ mi ≤ 59 ∧ sec ≤ 59 then
                       some ⟨y, mo, d, h, mi, sec⟩
                     else none
                 | _, _, _, _, _, _ => none)
            | _ => none)
       | _, _ => none)
  | _ => none

/-- Days from the civil epoch 1970-01-01 (Howard Hinnant's algorithm, floor
division throughout). -/
def daysFromCivil (dt : DT) : Int :=
  let y : Int := if dt.month ≤ 2 then (dt.year : Int) - 1 else (dt.year : Int)
  let era : Int := Int.fdiv y 400
  let yoe : Int := y - era * 400
  let mp : Nat := (dt.month + 9) % 12
  let doy : Int := Int.fdiv (153 * (mp : Int) + 2) 5 + (dt.day : Int) - 1
  let doe : Int := yoe * 365 + Int.fdiv yoe 4 - Int.fdiv yoe 100 + doy
  era * 146097 + doe - 719468

/-- Seconds since the Unix epoch of a parsed datetime. -/
def dtToSec (dt : DT) : Int :=
  daysFromCivil dt * 86400 + (dt.hour : Int) * 3600 + (dt.minute : Int) * 60 +
    (dt.second : Int)

/-- Zero-padded decimal field of width `w`. -/
def padNat (w n : Nat) : PyStr :=
  let s := pyOfNat n
  List.replicate (w - s.length) '0' ++ s

/-- `dt.strftime("%Y-%m-%d")`. -/
def strftimeYMD (dt : DT) : PyStr :=
  padNat 4 dt.year ++ pystr "-" ++ padNat 2 dt.month ++ pystr "-" ++ padNat 2 dt.day

/- ## Configuration constants (src/config.py) -/

/-- `settings.recent_days`. -/
def recent_days : Nat := 30

/-- `settings.very_recent_days`. -/
def very_recent_days : Nat := 90

/-- `settings.max_recent_commits`. -/
def max_recent_commits : Nat := 10

/-- `settings.github_username`. -/
def github_username : PyStr := pystr "fabioluciano"

/-- `datetime.now() - timedelta(days=d)` as epoch seconds, for a reference
time `now` (epoch seconds). -/
def daysAgo (now : Int) (d : Nat) : Int := now - (d : Int) * 86400

/- ## Activity analysis (src/github_analyzer.py:121-205) -/

/-- One commit record of a push-event payload; `message` is optional and read
through `safe_get(commit, "message", "")`. -/
structure RawCommit where
  message : Option PyStr
deriving DecidableEq

/-- The event payload: `commits` for push events, `action` for issue events
(read through `.get("action")`). -/
structure Payload where
  commits : List RawCommit := []
  action : Option PyStr := none
deriving DecidableEq

/-- An activity event as `analyze_recent_activity` consumes it: `created_at`,
`type`, `repo.name`, and an optional payload (`safe_get(event, "payload", {})`
substitutes the empty payload when missing or null). -/
structure RawEvent where
  created_at : PyStr
  type : PyStr
  repo_name : PyStr
  payload : Option Payload := none
deriving DecidableEq

/-- One entry of `recent_commits_detail`. -/
structure CommitDetail where
  repo : PyStr
  message : PyStr
  date : PyStr
deriving DecidableEq

/-- The accumulator built by `analyze_recent_activity`.  Python sets are
modelled as duplicate-free insertion lists (the code converts them to lists at
the end and only membership is consumed). -/
structure ActivitySummary where
  commits : Nat := 0
  prs_created : Nat := 0
  prs_reviewed : Nat := 0
  issues_opened : Nat := 0
  issues_commented : Nat := 0
  repos_worked_on : List PyStr := []
  repos_contributed : List PyStr := []
  recent_commits_detail : List CommitDetail := []
  collaboration_repos : List PyStr := []
deriving DecidableEq

/-- `set.add`: append the element when not already present. -/
def setAdd (s : List PyStr) (x : PyStr) : List PyStr :=
  if x ∈ s then s else s ++ [x]

/-- `repo_full_name.split("/")[-1]`. -/
def bareName (s : PyStr) : PyStr := (splitOnChar '/' s).getLastD []

/-- `payload.get("commits", [])` through the `safe_get` default. -/
def eventCommits (e : RawEvent) : List RawCommit :=
  match e.payload with
  | none => []
  | some p => p.commits

/-- `payload.get("action")` through the `safe_get` default. -/
def eventAction (e : RawEvent) : Option PyStr :=
  match e.payload with
  | none => none
  | some p => p.action

/-- The body of `analyze_recent_activity`'s event loop for one event
(src/github_analyzer.py:147-194): parse `created_at` (skip on `ValueError`),
skip events strictly older than the 30-day cutoff, then dispatch on the event
type exactly as the source does. -/
def stepEvent (own : List PyStr) (now : Int) (acc : ActivitySummary)
    (e : RawEvent) : ActivitySummary :=
  match strptimeZ e.created_at with
  | none => acc
  | some dt =>
      if dtToSec dt < daysAgo now recent_days then acc
      else
        if e.type = pystr "PushEvent" then
          let commits := eventCommits e
          let acc1 := { acc with
            commits := acc.commits + commits.length,
            repos_worked_on := setAdd acc.repos_worked_on e.repo_name }
          if e.repo_name ∈ own then
            { acc1 with recent_commits_detail :=
                acc1.recent_commits_detail ++
                  (commits.take max_recent_commits).map (fun c =>
                    { repo := e.repo_name, message := c.message.getD [],
                      date := strftimeYMD dt }) }
          else if bareName e.repo_name ∈ own.map bareName then acc1
          else
            { acc1 with repos_contributed := setAdd acc1.repos_contributed e.repo_name }
        else if e.type = pystr "PullRequestEvent" then
          let acc1 := { acc with prs_created := acc.prs_created + 1 }
          if e.repo_name ∉ own ∧ bareName e.repo_name ∉ own.map bareName then
            { acc1 with collaboration_repos := setAdd acc1.collaboration_repos e.repo_name }
          else acc1
        else if e.type = pystr "PullRequestReviewEvent" then
          { acc with prs_reviewed := acc.prs_reviewed + 1 }
        else if e.type = pystr "IssuesEvent" then
          if eventAction e = some (pystr "opened") then
            { acc with issues_opened := acc.issues_opened + 1 }
          else acc
        else if e.type = pystr "IssueCommentEvent" then
          { acc with issues_commented := acc.issues_commented + 1 }
        else acc

/-- `analyze_recent_activity(events, own_repos_names)`; `now` is the value the
source reads from `datetime.now()` at github_analyzer.py:137.  The final
set-to-list conversion is the identity under the list model. -/
def analyze_recent_activity (events : List RawEvent) (own : List PyStr)
    (now : Int) : ActivitySummary :=
  events.foldl (stepEvent own now) {}

/- ## Repository records and comprehensive-data extraction
(src/analysis.py:95-201) -/

/-- A fetched repository record.  Required fields (`full_name`, `html_url`,
`updated_at`) are plain; fields the source reads through `safe_get` are
`Option` (missing and `null` coincide under `safe_get`). -/
structure RawRepo where
  full_name : PyStr
  html_url : PyStr
  updated_at : PyStr
  description : Option PyStr := none
  language : Option PyStr := none
  topics : Option (List PyStr) := none
  stargazers_count : Option Nat := none
  forks_count : Option Nat := none
  fork : Option Bool := none
  privateFlag : Option Bool := none
  has_issues : Option Bool := none
  open_issues_count : Option Nat := none
  size : Option Nat := none
deriving DecidableEq

/-- A starred-repository item: `{"starred_at": ..., "repo": {...}}`. -/
structure StarItem where
  starred_at : PyStr
  repo : RawRepo
deriving DecidableEq

/-- The category -> keyword table of `extract_repo_insights`
(src/github_analyzer.py:210-217), in source order. -/
def tech_keywords : List (PyStr × List PyStr) :=
  [ (pystr "frontend",
      [pystr "react", pystr "vue", pystr "angular", pystr "svelte",
       pystr "next.js", pystr "nuxt"]),
    (pystr "backend",
      [pystr "django", pystr "flask", pystr "fastapi", pystr "express",
       pystr "nest.js", pystr "spring"]),
    (pystr "mobile",
      [pystr "react native", pystr "flutter", pystr "swift", pystr "kotlin",
       pystr "ionic"]),
    (pystr "devops",
      [pystr "docker", pystr "kubernetes", pystr "k8s", pystr "terraform",
       pystr "ansible", pystr "ci/cd"]),
    (pystr "data",
      [pystr "pandas", pystr "numpy", pystr "tensorflow", pystr "pytorch",
       pystr "spark", pystr "airflow"]),
    (pystr "cloud",
      [pystr "aws", pystr "azure", pystr "gcp", pystr "cloud",
       pystr "serverless", pystr "lambda"]) ]

/-- `extract_repo_insights(repo)["categories"]` (the only part of the insights
record its callers consume): the categories whose keyword list hits the
lower-cased description by substring match, in table order. -/
def repoCategories (description : PyStr) : List PyStr :=
  let dl := lowerStr description
  (tech_keywords.filter (fun kv => kv.2.any (fun k => containsSub k dl))).map
    (fun kv => kv.1)

/-- A starred `repo_info` record (src/analysis.py:143-155). -/
structure StarredInfo where
  starred_at : PyStr
  name : PyStr
  description : PyStr
  url : PyStr
  language : PyStr
  topics : PyStr
  stars : Nat
  forks : Nat
  is_recent : Bool
  is_very_recent : Bool
  categories : PyStr
deriving DecidableEq

/-- An owned `repo_info` record (src/analysis.py:179-194). -/
structure OwnInfo where
  name : PyStr
  description : PyStr
  url : PyStr
  language : PyStr
  topics : PyStr
  stars : Nat
  forks : Nat
  updated_at : PyStr
  is_active : Bool
  is_private : Bool
  has_issues : Bool
  open_issues : Nat
  categories : PyStr
  size_kb : Nat
deriving DecidableEq

/-- `user_info` as the embedded functions consume it (`.get("name", ...)` in
the fallback README is the only field read on any path modelled here). -/
structure UserInfo where
  name : Option PyStr := none
deriving DecidableEq

/-- The `all_data` dictionary built by `extract_comprehensive_data`.
`topic_timeline`, `language_evolution` and `repo_categories` are
`defaultdict`s, modelled as insertion-ordered association lists. -/
structure AllData where
  starred : List StarredInfo := []
  own_repos : List OwnInfo := []
  activity : ActivitySummary
  user_info : UserInfo
  all_topics : List PyStr := []
  all_languages : List PyStr := []
  recent_stars : List StarredInfo := []
  topic_timeline : List (PyStr × List DT) := []
  language_evolution : List (PyStr × Nat) := []
  repo_categories : List (PyStr × Nat) := []
deriving DecidableEq

/-- `defaultdict(int)` increment: bump the existing key or append it with 1. -/
def bumpCount (m : List (PyStr × Nat)) (k : PyStr) : List (PyStr × Nat) :=
  match m with
  | [] => [(k, 1)]
  | (k0, v) :: rest => if k0 = k then (k0, v + 1) :: rest else (k0, v) :: bumpCount rest k

/-- `defaultdict(list)` append: extend the existing key or append it. -/
def pushTimeline (m : List (PyStr × List DT)) (k : PyStr) (d : DT) :
    List (PyStr × List DT) :=
  match m with
  | [] => [(k, [d])]
  | (k0, v) :: rest =>
      if k0 = k then (k0, v ++ [d]) :: rest else (k0, v) :: pushTimeline rest k d

/-- The starred `repo_info` built at src/analysis.py:143-155, given the parsed
`starred_at`. -/
def mkStarredInfo (now : Int) (item : StarItem) (dt : DT) : StarredInfo :=
  { starred_at := item.starred_at,
    name := item.repo.full_name,
    description := item.repo.description.getD [],
    url := item.repo.html_url,
    language := item.repo.language.getD [],
    topics := format_topics (item.repo.topics.getD []),
    stars := item.repo.stargazers_count.getD 0,
    forks := item.repo.forks_count.getD 0,
    is_recent := decide (dtToSec dt > daysAgo now recent_days),
    is_very_recent := decide (dtToSec dt > daysAgo now very_recent_days),
    categories := format_topics (repoCategories (item.repo.description.getD [])) }

/-- One iteration of the starred-repos loop (src/analysis.py:122-160);
`strptime` on a malformed `starred_at` raises (`Except.error`). -/
def starredStep (now : Int) (acc : AllData) (item : StarItem) :
    Except Unit AllData :=
  match strptimeZ item.starred_at with
  | none => .error ()
  | some dt =>
      let topics := item.repo.topics.getD []
      let language := item.repo.language.getD []
      let cats := repoCategories (item.repo.description.getD [])
      let info := mkStarredInfo now item dt
      .ok { acc with
        all_topics := acc.all_topics ++ topics,
        all_languages :=
          if pyTruthy language then acc.all_languages ++ [language]
          else acc.all_languages,
        language_evolution :=
          if pyTruthy language then bumpCount acc.language_evolution language
          else acc.language_evolution,
        repo_categories := cats.foldl bumpCount acc.repo_categories,
        topic_timeline := topics.foldl (fun m tp => pushTimeline m tp dt) acc.topic_timeline,
        starred := acc.starred ++ [info],
        recent_stars :=
          if info.is_recent then acc.recent_stars ++ [info] else acc.recent_stars }

/-- The starred-repos loop. -/
def starredLoop (now : Int) : AllData → List StarItem → Except Unit AllData
  | acc, [] => .ok acc
  | acc, item :: rest =>
      match starredStep now acc item with
      | .error e => .error e
      | .ok acc2 => starredLoop now acc2 rest

/-- The owned `repo_info` built at src/analysis.py:174-194, raising on a
malformed `updated_at`. -/
def mkOwnInfo (now : Int) (r : RawRepo) : Except Unit OwnInfo :=
  match strptimeZ r.updated_at with
  | none => .error ()
  | some dt =>
      .ok { name := r.full_name,
            description := r.description.getD [],
            url := r.html_url,
            language := r.language.getD [],
            topics := format_topics (r.topics.getD []),
            stars := r.stargazers_count.getD 0,
            forks := r.forks_count.getD 0,
            updated_at := r.updated_at,
            is_active := decide (dtToSec dt > daysAgo now recent_days),
            is_private := r.privateFlag.getD false,
            has_issues := r.has_issues.getD false,
            open_issues := r.open_issues_count.getD 0,
            categories := format_topics (repoCategories (r.description.getD [])),
            size_kb := r.size.getD 0 }

/-- One iteration of the own-repos loop (src/analysis.py:162-196): forked
repositories (`safe_get(repo, "fork", False)` truthy) are skipped entirely. -/
def ownStep (now : Int) (acc : AllData) (r : RawRepo) : Except Unit AllData :=
  if r.fork.getD false then .ok acc
  else
    match mkOwnInfo now r with
    | .error e => .error e
    | .ok info =>
        .ok { acc with
          all_topics := acc.all_topics ++ r.topics.getD [],
          all_languages :=
            if pyTruthy (r.language.getD []) then
              acc.all_languages ++ [r.language.getD []]
            else acc.all_languages,
          repo_categories :=
            (repoCategories (r.description.getD [])).foldl bumpCount
              acc.repo_categories,
          own_repos := acc.own_repos ++ [info] }

/-- The own-repos loop. -/
def ownLoop (now : Int) : AllData → List RawRepo → Except Unit AllData
  | acc, [] => .ok acc
  | acc, r :: rest =>
      match ownStep now acc r with
      | .error e => .error e
      | .ok acc2 => ownLoop now acc2 rest

/-- `all_data["own_repos"].sort(key=lambda x: x["updated_at"], reverse=True)`:
stable descending sort by the `updated_at` string. -/
def sortOwnRepos (l : List OwnInfo) : List OwnInfo :=
  sortDescBy pyStrLe (fun o => o.updated_at) l

/-- The freshly initialised `all_data` dictionary (src/analysis.py:103-114). -/
def initAllData (activity : ActivitySummary) (user_info : UserInfo) : AllData :=
  { activity := activity, user_info := user_info }

/-- `extract_comprehensive_data(starred_repos, user_repos, activity, user_info)`
(src/analysis.py:95-201); `now` is the value `datetime.now()` yields at
src/analysis.py:116-117. -/
def extract_comprehensive_data (starred_repos : List StarItem)
    (user_repos : List RawRepo) (activity : ActivitySummary)
    (user_info : UserInfo) (now : Int) : Except Unit AllData :=
  match starredLoop now (initAllData activity user_info) starred_repos with
  | .error e => .error e
  | .ok a1 =>
      match ownLoop now a1 user_repos with
      | .error e => .error e
      | .ok a2 => .ok { a2 with own_repos := sortOwnRepos a2.own_repos }

/- ## Trend identification (src/analysis.py:29-93) -/

/-- One `emerging_topics` entry. -/
structure TopicEntry where
  topic : PyStr
  recent_count : Nat
  total_count : Nat
deriving DecidableEq

/-- The `trends` dictionary. -/
structure Trends where
  emerging_topics : List TopicEntry
  growing_languages : List PyStr
  focus_shift : Option PyStr
  activity_pattern : PyStr
  expertise_areas : List PyStr
deriving DecidableEq

/-- The `recent_topics` list (src/analysis.py:47-50): the `"|"`-joined topics
field of each recent star, split back on `"|"` when truthy. -/
def recentTopicsList (d : AllData) : List PyStr :=
  d.recent_stars.flatMap (fun r =>
    if pyTruthy r.topics then splitOnChar '|' r.topics else [])

/-- The `recent_languages` list (src/analysis.py:67-71). -/
def recentLanguagesList (d : AllData) : List PyStr :=
  (d.recent_stars.filter (fun r => pyTruthy r.language)).map (fun r => r.language)

/-- The emerging-topics loop (src/analysis.py:55-64) over
`recent_topic_counts.most_common(10)`.  `recent_count / total_count` is exact:
for a non-zero denominator, `r / t > 0.3` holds iff `10 * r > 3 * t`; a zero
denominator raises `ZeroDivisionError` (`Except.error`), as Python's division
does. -/
def emergingFold (allTopics : List PyStr) :
    List (PyStr × Nat) → Except Unit (List TopicEntry)
  | [] => .ok []
  | (tp, rc) :: rest =>
      if allTopics.count tp = 0 then .error ()
      else
        match emergingFold allTopics rest with
        | .error e => .error e
        | .ok tail =>
            .ok (if 10 * rc > 3 * allTopics.count tp then
                   { topic := tp, recent_count := rc,
                     total_count := allTopics.count tp } :: tail
                 else tail)

/-- The activity-pattern thresholds (src/analysis.py:78-86). -/
def activityPattern (commits : Nat) : PyStr :=
  if commits > 50 then pystr "highly_active"
  else if commits > 20 then pystr "active"
  else if commits > 5 then pystr "moderate"
  else pystr "light"

/-- The growing-languages computation (src/analysis.py:66-76): the 5 most
common recent languages, kept when their count is at least 2, in
`most_common` order. -/
def growingLanguages (d : AllData) : List PyStr :=
  ((mostCommon 5 (recentLanguagesList d)).filter (fun kc => decide (kc.2 ≥ 2))).map
    (fun kc => kc.1)

/-- The expertise-areas loop (src/analysis.py:88-91). -/
def expertiseAreas (d : AllData) : List PyStr :=
  (d.repo_categories.filter (fun kc => decide (kc.2 ≥ 3))).map (fun kc => kc.1)

/-- `identify_trends(all_data)` (src/analysis.py:29-93): the emerging-topics
section runs first and is the only one that can raise. -/
def identify_trends (d : AllData) : Except Unit Trends :=
  match emergingFold d.all_topics (mostCommon 10 (recentTopicsList d)) with
  | .error e => .error e
  | .ok em =>
      .ok { emerging_topics := em,
            growing_languages := growingLanguages d,
            focus_shift := none,
            activity_pattern := activityPattern d.activity.commits,
            expertise_areas := expertiseAreas d }

/- ## Content generation and README export
(src/gemini_generator.py, src/data_exporter.py) -/

/-- The generated content dictionary `{"pt-br": ..., "en": ...}`. -/
structure GenContent where
  ptBr : PyStr
  en : PyStr
deriving DecidableEq

/-- Python `s.replace(pat, rep)` for a non-empty pattern: non-overlapping
replacement left to right. -/
def replaceSub (pat rep : PyStr) : PyStr → PyStr
  | [] => []
  | x :: xs =>
      if h : pat ≠ [] ∧ startsWithStr pat (x :: xs) then
        rep ++ replaceSub pat rep ((x :: xs).drop pat.length)
      else
        x :: replaceSub pat rep xs
termination_by s => s.length
decreasing_by
  · simp only [List.length_drop, List.length_cons]
    have : pat.length ≠ 0 := fun hl => h.1 (List.eq_nil_of_length_eq_zero hl)
    omega
  · simp

/-- Python `s.split(sep)` for a non-empty substring separator. -/
def splitOnSub (sep : PyStr) : PyStr → List PyStr
  | [] => [[]]
  | x :: xs =>
      if h : sep ≠ [] ∧ startsWithStr sep (x :: xs) then
        [] :: splitOnSub sep ((x :: xs).drop sep.length)
      else
        match splitOnSub sep xs with
        | [] => [[x]]
        | hd :: t => (x :: hd) :: t
termination_by s => s.length
decreasing_by
  · simp only [List.length_drop, List.length_cons]
    have : sep.length ≠ 0 := fun hl => h.1 (List.eq_nil_of_length_eq_zero hl)
    omega
  · simp

/-- Python `s.strip()`. -/
def stripStr (s : PyStr) : PyStr :=
  ((s.dropWhile Char.isWhitespace).reverse.dropWhile Char.isWhitespace).reverse

/-- The trophy-image line of the fallback README. -/
def trophyLine : PyStr :=
  pystr "![GitHub Trophies](https://github-profile-trophy.vercel.app/?username=" ++
    github_username ++ pystr "&theme=onedark&no-frame=true&no-bg=true&column=7)"

/-- `_generate_fallback_readme(all_data, trends)`
(src/gemini_generator.py:337-363): the deterministic templated fallback. -/
def generateFallbackReadme (d : AllData) (t : Trends) : PyStr :=
  let username := d.user_info.name.getD github_username
  pystr "# " ++ username ++
    pystr "\n\n## About Me\n\nI\x27m a developer with " ++
    pyOfNat d.starred.length ++
    pystr " starred repositories and " ++ pyOfNat d.own_repos.length ++
    pystr " personal projects.\n\n## Recent Activity\n\n- " ++
    pyOfNat d.activity.commits ++ pystr " commits in the last " ++
    pyOfNat recent_days ++ pystr " days\n- " ++
    pyOfNat d.activity.prs_created ++ pystr " pull requests created\n- " ++
    pyOfNat d.activity.prs_reviewed ++
    pystr " pull requests reviewed\n\n## Technologies\n\n" ++
    (if t.expertise_areas.isEmpty then pystr "Exploring various technologies"
     else pyJoin (pystr ", ") t.expertise_areas) ++
    pystr "\n\n## GitHub Trophies\n\n" ++ trophyLine ++ pystr "\n"

/-- The language separator marker the prompt instructs the service to emit. -/
def langSeparator : PyStr := pystr "---LANG_SEPARATOR---"

/-- `generate_profile_content(all_data, trends)`
(src/gemini_generator.py:22-335).  `clientPresent` models `self.client`
being non-`None` (an API key was configured); `serviceResult` models the
outcome of the `generate_content` network call (`Except.error` for any raised
exception).  The prompt string itself is passed only to the external service
and does not influence the shape of the returned value, so it is not
reproduced here.  With no client the function returns `None`; a service
exception is caught and the deterministic fallback substituted for both
languages; a successful response is cleaned up and split on the separator. -/
def generate_profile_content (clientPresent : Bool)
    (serviceResult : Except PyStr PyStr) (d : AllData) (t : Trends) :
    Option GenContent :=
  if !clientPresent then none
  else
    match serviceResult with
    | .ok text =>
        let content :=
          stripStr (replaceSub (pystr "```") []
            (replaceSub (pystr "```markdown") [] text))
        if containsSub langSeparator content then
          let parts := splitOnSub langSeparator content
          some { ptBr := stripStr (parts.headD []),
                 en := if parts.length > 1 then stripStr (parts.getD 1 [])
                       else stripStr (parts.headD []) }
        else some { ptBr := content, en := content }
    | .error _ =>
        let fb := generateFallbackReadme d t
        some { ptBr := fb, en := fb }

/-- `settings.output_dir`. -/
def output_dir : PyStr := pystr "."

/-- `settings.readme_filename`. -/
def readme_filename : PyStr := pystr "README.md"

/-- `os.path.join` for the two-argument uses in `update_readme`. -/
def osJoin (dir name : PyStr) : PyStr :=
  if dir.isEmpty then name else dir ++ pystr "/" ++ name

/-- `DataExporter.update_readme(content)` (src/data_exporter.py:12-40): the
file writes are modelled as the returned list of `(path, contents)` pairs;
the `Bool` is the function's return value.  With no content, nothing is
written and `False` is returned. -/
def update_readme (content : Option GenContent) : List (PyStr × PyStr) × Bool :=
  match content with
  | none => ([], false)
  | some c =>
      ([(osJoin output_dir (pystr "README.pt-br.md"), c.ptBr),
        (osJoin output_dir (pystr "README.en.md"), c.en),
        (osJoin output_dir readme_filename, c.ptBr)], true)

/- ## Helper lemmas -/

theorem mem_insDescBy {α κ : Type} (le : κ → κ → Bool) (key : α → κ) (x a : α)
    (l : List α) : a ∈ insDescBy le key x l ↔ a = x ∨ a ∈ l := by
  induction l with
  | nil => simp [insDescBy]
  | cons y ys ih =>
      simp only [insDescBy]
      split
      · simp [List.mem_cons]
      · simp [List.mem_cons, ih]
        tauto

theorem mem_sortDescBy {α κ : Type} (le : κ → κ → Bool) (key : α → κ) (a : α)
    (l : List α) : a ∈ sortDescBy le key l ↔ a ∈ l := by
  induction l with
  | nil => simp [sortDescBy]
  | cons x xs ih => simp [sortDescBy, mem_insDescBy, ih]

theorem pairwise_insDescBy {α κ : Type} {R : α → α → Prop} (le : κ → κ → Bool)
    (key : α → κ) (x : α) (l : List α)
    (hT : ∀ a b : α, le (key a) (key b) = true → R b a)
    (hF : ∀ a b : α, le (key a) (key b) = false → R a b)
    (htr : Transitive R) (hl : l.Pairwise R) :
    (insDescBy le key x l).Pairwise R := by
  induction l with
  | nil => simp [insDescBy]
  | cons y ys ih =>
      rcases List.pairwise_cons.mp hl with ⟨hy, hys⟩
      simp only [insDescBy]
      by_cases hle : le (key y) (key x) = true
      · rw [if_pos hle]
        refine List.pairwise_cons.mpr ⟨?_, hl⟩
        intro z hz
        rcases List.mem_cons.mp hz with rfl | hz
        · exact hT z x hle
        · exact htr (hT y x hle) (hy z hz)
      · rw [if_neg hle]
        rw [Bool.not_eq_true] at hle
        refine List.pairwise_cons.mpr ⟨?_, ih hys⟩
        intro z hz
        rcases (mem_insDescBy le key x z ys).mp hz with rfl | hz
        · exact hF y z hle
        · exact hy z hz

theorem pairwise_sortDescBy {α κ : Type} {R : α → α → Prop} (le : κ → κ → Bool)
    (key : α → κ) (l : List α)
    (hT : ∀ a b : α, le (key a) (key b) = true → R b a)
    (hF : ∀ a b : α, le (key a) (key b) = false → R a b)
    (htr : Transitive R) : (sortDescBy le key l).Pairwise R := by
  induction l with
  | nil => simp [sortDescBy]
  | cons x xs ih => exact pairwise_insDescBy le key x _ hT hF htr ih

theorem dedupFS_subset {x : PyStr} {l : List PyStr} (h : x ∈ dedupFS l) :
    x ∈ l := by
  induction l with
  | nil => simpa [dedupFS] using h
  | cons a xs ih =>
      simp only [dedupFS, List.mem_cons] at h
      rcases h with rfl | h
      · exact List.mem_cons_self ..
      · exact List.mem_cons_of_mem _ (ih (List.mem_of_mem_filter h))

/-- Every entry of `mostCommon n l` is a key of `l` paired with its exact
multiplicity in `l`. -/
theorem mostCommon_mem {n : Nat} {l : List PyStr} {p : PyStr × Nat}
    (h : p ∈ mostCommon n l) : p.2 = l.count p.1 ∧ p.1 ∈ l := by
  unfold mostCommon at h
  have h2 := List.mem_of_mem_take h
  rw [mem_sortDescBy] at h2
  rcases List.mem_map.mp h2 with ⟨k, hk, rfl⟩
  exact ⟨rfl, dedupFS_subset hk⟩

theorem mostCommon_length (n : Nat) (l : List PyStr) :
    (mostCommon n l).length ≤ n := by
  unfold mostCommon
  exact List.length_take_le ..

/-- `mostCommon` entries are in weakly descending count order. -/
theorem mostCommon_pairwise (n : Nat) (l : List PyStr) :
    (mostCommon n l).Pairwise (fun a b => b.2 ≤ a.2) := by
  unfold mostCommon
  refine List.Pairwise.sublist (List.take_sublist _ _) ?_
  refine pairwise_sortDescBy _ _ _ ?_ ?_ ?_
  · intro a b h
    exact of_decide_eq_true h
  · intro a b h
    exact le_of_lt (Nat.lt_of_not_le (of_decide_eq_false h))
  · intro a b c h1 h2
    exact le_trans h2 h1

theorem splitOnChar_of_not_mem {c : Char} {t : PyStr} (h : c ∉ t) :
    splitOnChar c t = [t] := by
  induction t with
  | nil => rfl
  | cons x xs ih =>
      have hx : ¬ x = c := fun he => h (he ▸ List.mem_cons_self ..)
      have hxs : c ∉ xs := fun hm => h (List.mem_cons_of_mem _ hm)
      simp only [splitOnChar, if_neg hx, ih hxs]

theorem splitOnChar_append_sep {c : Char} {t rest : PyStr} (h : c ∉ t) :
    splitOnChar c (t ++ c :: rest) = t :: splitOnChar c rest := by
  induction t with
  | nil => simp [splitOnChar]
  | cons x xs ih =>
      have hx : ¬ x = c := fun he => h (he ▸ List.mem_cons_self ..)
      have hxs : c ∉ xs := fun hm => h (List.mem_cons_of_mem _ hm)
      rw [List.cons_append]
      simp only [splitOnChar, List.append_eq, if_neg hx, ih hxs]

/-- Splitting the `"|"`-join of a non-empty list of pipe-free topic strings
recovers the list: the encoding used between `extract_comprehensive_data` and
`identify_trends` is faithful in that case. -/
theorem splitOnChar_pyJoin {ts : List PyStr} (hne : ts ≠ [])
    (hp : ∀ t ∈ ts, '|' ∉ t) :
    splitOnChar '|' (pyJoin (pystr "|") ts) = ts := by
  induction ts with
  | nil => exact absurd rfl hne
  | cons t rest ih =>
      cases rest with
      | nil =>
          simp only [pyJoin]
          exact splitOnChar_of_not_mem (hp t (List.mem_cons_self ..))
      | cons u rest2 =>
          have ht : '|' ∉ t := hp t (List.mem_cons_self ..)
          have hrest : ∀ v ∈ u :: rest2, '|' ∉ v := fun v hv =>
            hp v (List.mem_cons_of_mem _ hv)
          have : pyJoin (pystr "|") (t :: u :: rest2) =
              t ++ '|' :: pyJoin (pystr "|") (u :: rest2) := by
            simp [pyJoin, pystr]
          rw [this, splitOnChar_append_sep ht, ih (by simp) hrest]

/- ## Activity-fold lemmas -/

/-- The event survives the parse-and-window guard of the loop
(src/github_analyzer.py:147-156). -/
def isRecentEv (now : Int) (e : RawEvent) : Bool :=
  match strptimeZ e.created_at with
  | none => false
  | some dt => decide (¬ dtToSec dt < daysAgo now recent_days)

/-- The event is a push event inside the window. -/
def isRecentPush (now : Int) (e : RawEvent) : Bool :=
  isRecentEv now e && decide (e.type = pystr "PushEvent")

/-- The event is a push event inside the window on one of the user's own
repositories (the condition under which commit details are appended). -/
def isOwnRecentPush (own : List PyStr) (now : Int) (e : RawEvent) : Bool :=
  isRecentPush now e && decide (e.repo_name ∈ own)

theorem stepEvent_skip {own : List PyStr} {now : Int} {acc : ActivitySummary}
    {e : RawEvent} (h : strptimeZ e.created_at = none) :
    stepEvent own now acc e = acc := by
  unfold stepEvent
  rw [h]

theorem stepEvent_commits (own : List PyStr) (now : Int) (acc : ActivitySummary)
    (e : RawEvent) :
    (stepEvent own now acc e).commits =
      acc.commits +
        (if isRecentPush now e then (eventCommits e).length else 0) := by
  unfold stepEvent isRecentPush isRecentEv
  cases hp : strptimeZ e.created_at with
  | none => simp
  | some dt =>
      by_cases hd : dtToSec dt < daysAgo now recent_days
      · simp [hd]
      · by_cases hty : e.type = pystr "PushEvent"
        · simp [hd, hty]
          split_ifs <;> simp
        · simp [hd, hty]
          split_ifs <;> simp

/-- The commit details a single event contributes (nonempty only for an
own-repo push event inside the window, and truncated per event at
`max_recent_commits`). -/
def detailContribution (own : List PyStr) (now : Int) (e : RawEvent) :
    List CommitDetail :=
  match strptimeZ e.created_at with
  | none => []
  | some dt =>
      if dtToSec dt < daysAgo now recent_days then []
      else if e.type = pystr "PushEvent" ∧ e.repo_name ∈ own then
        ((eventCommits e).take max_recent_commits).map (fun c =>
          { repo := e.repo_name, message := c.message.getD [],
            date := strftimeYMD dt })
      else []

theorem stepEvent_details (own : List PyStr) (now : Int) (acc : ActivitySummary)
    (e : RawEvent) :
    (stepEvent own now acc e).recent_commits_detail =
      acc.recent_commits_detail ++ detailContribution own now e := by
  unfold stepEvent detailContribution
  cases hp : strptimeZ e.created_at with
  | none => simp
  | some dt =>
      by_cases hd : dtToSec dt < daysAgo now recent_days
      · simp [hd]
      · by_cases hty : e.type = pystr "PushEvent"
        · simp [hd, hty]
          split_ifs <;> simp
        · simp [hd, hty]
          split_ifs <;> simp

theorem detailContribution_length (own : List PyStr) (now : Int) (e : RawEvent) :
    (detailContribution own now e).length ≤
      if isOwnRecentPush own now e then max_recent_commits else 0 := by
  unfold detailContribution isOwnRecentPush isRecentPush isRecentEv
  cases hp : strptimeZ e.created_at with
  | none => simp
  | some dt =>
      by_cases hd : dtToSec dt < daysAgo now recent_days
      · simp [hd]
      · by_cases hty : e.type = pystr "PushEvent"
        · by_cases ho : e.repo_name ∈ own
          · simp [hd, hty, ho]
          · simp [hd, hty, ho]
        · simp [hd, hty]

theorem detailContribution_repo_mem (own : List PyStr) (now : Int)
    (e : RawEvent) : ∀ x ∈ detailContribution own now e, x.repo ∈ own := by
  unfold detailContribution
  cases hp : strptimeZ e.created_at with
  | none => simp
  | some dt =>
      by_cases hd : dtToSec dt < daysAgo now recent_days
      · simp [hd]
      · by_cases hc : e.type = pystr "PushEvent" ∧ e.repo_name ∈ own
        · simp only [if_neg hd, if_pos hc]
          intro x hx
          rcases List.mem_map.mp hx with ⟨c, _, rfl⟩
          exact hc.2
        · simp [hd, hc]

theorem mem_setAdd_self (s : List PyStr) (x : PyStr) : x ∈ setAdd s x := by
  unfold setAdd
  split
  · assumption
  · simp

theorem mem_setAdd_of_mem {s : List PyStr} {y : PyStr} (x : PyStr)
    (h : y ∈ s) : y ∈ setAdd s x := by
  unfold setAdd
  split
  · exact h
  · exact List.mem_append_left _ h

theorem stepEvent_worked_on_superset (own : List PyStr) (now : Int)
    (acc : ActivitySummary) (e : RawEvent) {x : PyStr}
    (h : x ∈ acc.repos_worked_on) :
    x ∈ (stepEvent own now acc e).repos_worked_on := by
  unfold stepEvent
  cases hp : strptimeZ e.created_at with
  | none => exact h
  | some dt =>
      by_cases hd : dtToSec dt < daysAgo now recent_days
      · simp only [if_pos hd]
        exact h
      · simp only [if_neg hd]
        split_ifs <;> simp [mem_setAdd_of_mem, h]

theorem stepEvent_worked_on_add (own : List PyStr) (now : Int)
    (acc : ActivitySummary) (e : RawEvent) (h : isRecentPush now e = true) :
    e.repo_name ∈ (stepEvent own now acc e).repos_worked_on := by
  unfold isRecentPush isRecentEv at h
  unfold stepEvent
  cases hp : strptimeZ e.created_at with
  | none => rw [hp] at h; simp at h
  | some dt =>
      rw [hp] at h
      simp only [Bool.and_eq_true, decide_eq_true_eq] at h
      simp only [if_neg h.1]
      rw [if_pos h.2]
      split_ifs <;> simp [mem_setAdd_self]

theorem foldl_stepEvent_commits (own : List PyStr) (now : Int)
    (events : List RawEvent) :
    ∀ acc : ActivitySummary,
      (events.foldl (stepEvent own now) acc).commits =
        acc.commits +
          (events.map (fun e =>
            if isRecentPush now e then (eventCommits e).length else 0)).sum := by
  induction events with
  | nil => intro acc; simp
  | cons e rest ih =>
      intro acc
      simp only [List.foldl_cons, List.map_cons, List.sum_cons]
      rw [ih (stepEvent own now acc e), stepEvent_commits]
      omega

theorem foldl_stepEvent_details (own : List PyStr) (now : Int)
    (events : List RawEvent) :
    ∀ acc : ActivitySummary,
      (events.foldl (stepEvent own now) acc).recent_commits_detail =
        acc.recent_commits_detail ++
          events.flatMap (detailContribution own now) := by
  induction events with
  | nil => intro acc; simp
  | cons e rest ih =>
      intro acc
      simp only [List.foldl_cons, List.flatMap_cons]
      rw [ih (stepEvent own now acc e), stepEvent_details, List.append_assoc]

theorem foldl_stepEvent_worked_on_superset (own : List PyStr) (now : Int)
    (events : List RawEvent) :
    ∀ (acc : ActivitySummary) (x : PyStr), x ∈ acc.repos_worked_on →
      x ∈ (events.foldl (stepEvent own now) acc).repos_worked_on := by
  induction events with
  | nil => intro acc x h; simpa using h
  | cons e rest ih =>
      intro acc x h
      simp only [List.foldl_cons]
      exact ih _ x (stepEvent_worked_on_superset own now acc e h)

theorem foldl_stepEvent_worked_on_mem (own : List PyStr) (now : Int)
    (events : List RawEvent) :
    ∀ acc : ActivitySummary, ∀ e ∈ events, isRecentPush now e = true →
      e.repo_name ∈ (events.foldl (stepEvent own now) acc).repos_worked_on := by
  induction events with
  | nil => intro acc e h; simp at h
  | cons a rest ih =>
      intro acc e he hr
      simp only [List.foldl_cons]
      rcases List.mem_cons.mp he with rfl | he
      · exact foldl_stepEvent_worked_on_superset own now rest _ _
          (stepEvent_worked_on_add own now acc e hr)
      · exact ih _ e he hr

theorem sum_ite_le_mul_count {β : Type} (p : β → Bool) (c : Nat)
    (f : β → Nat) (hf : ∀ b : β, p b = false → f b = 0)
    (hc : ∀ b : β, f b ≤ c) (l : List β) :
    (l.map f).sum ≤ c * (l.filter p).length := by
  induction l with
  | nil => simp
  | cons b rest ih =>
      simp only [List.map_cons, List.sum_cons, List.filter_cons]
      cases hb : p b with
      | false =>
          rw [hf b hb]
          simpa using ih
      | true =>
          simp only [hb, if_true, List.length_cons, Nat.mul_succ]
          have h1 := hc b
          have h2 := ih
          omega

/- ## Extraction-loop lemmas -/

theorem starredStep_fields {now : Int} {acc : AllData} {item : StarItem}
    {acc2 : AllData} (h : starredStep now acc item = .ok acc2) :
    ∃ dt, strptimeZ item.starred_at = some dt ∧
      acc2.recent_stars =
        (if (mkStarredInfo now item dt).is_recent then
           acc.recent_stars ++ [mkStarredInfo now item dt]
         else acc.recent_stars) ∧
      acc2.all_topics = acc.all_topics ++ item.repo.topics.getD [] ∧
      acc2.own_repos = acc.own_repos := by
  unfold starredStep at h
  cases hp : strptimeZ item.starred_at with
  | none => rw [hp] at h; cases h
  | some dt =>
      rw [hp] at h
      simp only [Except.ok.injEq] at h
      exact ⟨dt, rfl, by rw [← h], by rw [← h], by rw [← h]⟩

theorem ownStep_fields {now : Int} {acc : AllData} {r : RawRepo}
    {acc2 : AllData} (h : ownStep now acc r = .ok acc2) :
    (r.fork.getD false = true ∧ acc2 = acc) ∨
    (r.fork.getD false = false ∧ ∃ info, mkOwnInfo now r = .ok info ∧
      acc2.own_repos = acc.own_repos ++ [info] ∧
      acc2.recent_stars = acc.recent_stars ∧
      acc2.all_topics = acc.all_topics ++ r.topics.getD []) := by
  unfold ownStep at h
  by_cases hf : r.fork.getD false = true
  · rw [if_pos hf] at h
    simp only [Except.ok.injEq] at h
    exact Or.inl ⟨hf, h.symm⟩
  · rw [Bool.not_eq_true] at hf
    rw [hf] at h
    simp only [Bool.false_eq_true, if_false] at h
    cases hm : mkOwnInfo now r with
    | error e => rw [hm] at h; cases h
    | ok info =>
        rw [hm] at h
        simp only [Except.ok.injEq] at h
        exact Or.inr ⟨hf, info, rfl, by rw [← h], by rw [← h], by rw [← h]⟩

theorem starredLoop_own_repos {now : Int} :
    ∀ {items : List StarItem} {acc a : AllData},
      starredLoop now acc items = .ok a → a.own_repos = acc.own_repos := by
  intro items
  induction items with
  | nil =>
      intro acc a h
      simp only [starredLoop, Except.ok.injEq] at h
      rw [h]
  | cons item rest ih =>
      intro acc a h
      unfold starredLoop at h
      cases hs : starredStep now acc item with
      | error e => rw [hs] at h; cases h
      | ok acc2 =>
          rw [hs] at h
          rw [ih h, (starredStep_fields hs).choose_spec.2.2.2]

theorem ownLoop_mem {now : Int} :
    ∀ {rs : List RawRepo} {acc a : AllData}, ownLoop now acc rs = .ok a →
      ∀ e ∈ a.own_repos, e ∈ acc.own_repos ∨
        ∃ r ∈ rs, r.fork.getD false = false ∧ mkOwnInfo now r = .ok e := by
  intro rs
  induction rs with
  | nil =>
      intro acc a h e he
      simp only [ownLoop, Except.ok.injEq] at h
      rw [← h] at he
      exact Or.inl he
  | cons r rest ih =>
      intro acc a h e he
      unfold ownLoop at h
      cases hs : ownStep now acc r with
      | error err => rw [hs] at h; cases h
      | ok acc2 =>
          rw [hs] at h
          rcases ih h e he with h2 | ⟨r2, hr2, hf2, hm2⟩
          · rcases ownStep_fields hs with ⟨_, rfl⟩ | ⟨hf, info, hm, hown, _, _⟩
            · exact Or.inl h2
            · rw [hown] at h2
              rcases List.mem_append.mp h2 with h3 | h3
              · exact Or.inl h3
              · rcases List.mem_singleton.mp h3 with rfl
                exact Or.inr ⟨r, List.mem_cons_self .., hf, hm⟩
          · exact Or.inr ⟨r2, List.mem_cons_of_mem _ hr2, hf2, hm2⟩

/- ## Topic-count invariant (recent-bucket counts never exceed all-time
counts when topic strings are pipe-free) -/

/-- Every topic occurs in the recovered recent-stars bucket at most as often
as in the all-time topic list. -/
def recentLeTotal (d : AllData) : Prop :=
  ∀ s : PyStr, (recentTopicsList d).count s ≤ d.all_topics.count s

theorem starredStep_inv {now : Int} {acc : AllData} {item : StarItem}
    {acc2 : AllData} (hpipe : ∀ tp ∈ item.repo.topics.getD [], '|' ∉ tp)
    (h : starredStep now acc item = .ok acc2) (hinv : recentLeTotal acc) :
    recentLeTotal acc2 := by
  rcases starredStep_fields h with ⟨dt, _, hrs, hat, _⟩
  intro s
  unfold recentTopicsList
  rw [hrs, hat]
  by_cases hrec : (mkStarredInfo now item dt).is_recent
  · rw [if_pos hrec, List.flatMap_append, List.count_append, List.count_append]
    have hc : (([mkStarredInfo now item dt]).flatMap
        (fun r => if pyTruthy r.topics then splitOnChar '|' r.topics else [])).count s ≤
        (item.repo.topics.getD []).count s := by
      simp only [List.flatMap_cons, List.flatMap_nil, List.append_nil]
      by_cases ht : pyTruthy (mkStarredInfo now item dt).topics
      · rw [if_pos ht]
        have hts : (mkStarredInfo now item dt).topics =
            format_topics (item.repo.topics.getD []) := rfl
        have hne : item.repo.topics.getD [] ≠ [] := by
          intro h0
          rw [hts, h0] at ht
          simp [format_topics, pyJoin, pyTruthy] at ht
        rw [hts, format_topics, splitOnChar_pyJoin hne hpipe]
      · rw [if_neg ht]
        simp
    have h2 := hinv s
    unfold recentTopicsList at h2
    omega
  · rw [if_neg hrec, List.count_append]
    have h2 := hinv s
    unfold recentTopicsList at h2
    omega

theorem ownStep_inv {now : Int} {acc : AllData} {r : RawRepo} {acc2 : AllData}
    (h : ownStep now acc r = .ok acc2) (hinv : recentLeTotal acc) :
    recentLeTotal acc2 := by
  rcases ownStep_fields h with ⟨_, rfl⟩ | ⟨_, info, _, _, hrs, hat⟩
  · exact hinv
  · intro s
    unfold recentTopicsList
    rw [hrs, hat, List.count_append]
    have h2 := hinv s
    unfold recentTopicsList at h2
    omega

theorem starredLoop_inv {now : Int} :
    ∀ {items : List StarItem} {acc a : AllData},
      (∀ item ∈ items, ∀ tp ∈ item.repo.topics.getD [], '|' ∉ tp) →
      starredLoop now acc items = .ok a → recentLeTotal acc → recentLeTotal a := by
  intro items
  induction items with
  | nil =>
      intro acc a _ h hi
      simp only [starredLoop, Except.ok.injEq] at h
      rw [← h]
      exact hi
  | cons item rest ih =>
      intro acc a hpipe h hi
      unfold starredLoop at h
      cases hs : starredStep now acc item with
      | error e => rw [hs] at h; cases h
      | ok acc2 =>
          rw [hs] at h
          exact ih (fun it hit => hpipe it (List.mem_cons_of_mem _ hit)) h
            (starredStep_inv (hpipe item (List.mem_cons_self ..)) hs hi)

theorem ownLoop_inv {now : Int} :
    ∀ {rs : List RawRepo} {acc a : AllData},
      ownLoop now acc rs = .ok a → recentLeTotal acc → recentLeTotal a := by
  intro rs
  induction rs with
  | nil =>
      intro acc a h hi
      simp only [ownLoop, Except.ok.injEq] at h
      rw [← h]
      exact hi
  | cons r rest ih =>
      intro acc a h hi
      unfold ownLoop at h
      cases hs : ownStep now acc r with
      | error e => rw [hs] at h; cases h
      | ok acc2 =>
          rw [hs] at h
          exact ih h (ownStep_inv hs hi)

/-- Under pipe-free starred topics, the extracted data satisfies the
invariant. -/
theorem extract_recentLeTotal {starred : List StarItem}
    {user_repos : List RawRepo} {act : ActivitySummary} {ui : UserInfo}
    {now : Int} {d : AllData}
    (hpipe : ∀ item ∈ starred, ∀ tp ∈ item.repo.topics.getD [], '|' ∉ tp)
    (h : extract_comprehensive_data starred user_repos act ui now = .ok d) :
    recentLeTotal d := by
  unfold extract_comprehensive_data at h
  split at h
  · cases h
  · rename_i a1 h1
    split at h
    · cases h
    · rename_i a2 h2
      simp only [Except.ok.injEq] at h
      have hinit : recentLeTotal (initAllData act ui) := by
        intro s
        simp [recentTopicsList, initAllData]
      have ha2 := ownLoop_inv h2 (starredLoop_inv hpipe h1 hinit)
      intro s
      have := ha2 s
      rw [← h]
      exact this

/- ## Emerging-topics lemmas -/

theorem emergingFold_mem {allT : List PyStr} :
    ∀ {pairs : List (PyStr × Nat)} {es : List TopicEntry},
      emergingFold allT pairs = .ok es → ∀ e ∈ es, ∃ p ∈ pairs,
        e.topic = p.1 ∧ e.recent_count = p.2 ∧ e.total_count = allT.count p.1 ∧
        allT.count p.1 ≠ 0 ∧ 10 * p.2 > 3 * allT.count p.1 := by
  intro pairs
  induction pairs with
  | nil =>
      intro es h e he
      simp only [emergingFold, Except.ok.injEq] at h
      rw [← h] at he
      simp at he
  | cons p rest ih =>
      intro es h e he
      obtain ⟨tp, rc⟩ := p
      unfold emergingFold at h
      by_cases hz : allT.count tp = 0
      · rw [if_pos hz] at h
        cases h
      · rw [if_neg hz] at h
        cases hrest : emergingFold allT rest with
        | error err => rw [hrest] at h; cases h
        | ok tail =>
            rw [hrest] at h
            simp only [Except.ok.injEq] at h
            by_cases hrat : 10 * rc > 3 * allT.count tp
            · rw [if_pos hrat] at h
              rw [← h] at he
              rcases List.mem_cons.mp he with rfl | he2
              · exact ⟨(tp, rc), List.mem_cons_self .., rfl, rfl, rfl, hz, hrat⟩
              · rcases ih hrest e he2 with ⟨q, hq, hrest2⟩
                exact ⟨q, List.mem_cons_of_mem _ hq, hrest2⟩
            · rw [if_neg hrat] at h
              rw [← h] at he
              rcases ih hrest e he with ⟨q, hq, hrest2⟩
              exact ⟨q, List.mem_cons_of_mem _ hq, hrest2⟩

theorem emergingFold_ok {allT : List PyStr} :
    ∀ {pairs : List (PyStr × Nat)}, (∀ p ∈ pairs, allT.count p.1 ≠ 0) →
      ∃ es, emergingFold allT pairs = .ok es := by
  intro pairs
  induction pairs with
  | nil => exact fun _ => ⟨[], rfl⟩
  | cons p rest ih =>
      intro hz
      obtain ⟨tp, rc⟩ := p
      rcases ih (fun q hq => hz q (List.mem_cons_of_mem _ hq)) with ⟨tail, htail⟩
      refine ⟨if 10 * rc > 3 * allT.count tp then
        { topic := tp, recent_count := rc,
          total_count := allT.count tp } :: tail else tail, ?_⟩
      unfold emergingFold
      rw [if_neg (hz (tp, rc) (List.mem_cons_self ..)), htail]

theorem identify_trends_ok {d : AllData} {t : Trends}
    (h : identify_trends d = .ok t) :
    emergingFold d.all_topics (mostCommon 10 (recentTopicsList d)) =
        .ok t.emerging_topics ∧
      t.growing_languages = growingLanguages d ∧
      t.activity_pattern = activityPattern d.activity.commits ∧
      t.expertise_areas = expertiseAreas d := by
  unfold identify_trends at h
  split at h
  · cases h
  · rename_i em hem
    simp only [Except.ok.injEq] at h
    rw [← h]
    exact ⟨hem, rfl, rfl, rfl⟩

/- ## Claim theorems -/

/-- A default `Trends` value (used only to name computed results in closed
statements). -/
def defaultTrends : Trends :=
  { emerging_topics := [], growing_languages := [], focus_shift := none,
    activity_pattern := [], expertise_areas := [] }

/-- A default `AllData` value (used only to name computed results in closed
statements). -/
def defaultAllData : AllData := initAllData {} {}

/-- Claim C1: for every input on which `identify_trends` returns,
`activity_pattern` is exactly one of the four labels `highly_active`,
`active`, `moderate`, `light`, determined solely by the recent commit count
with exclusive lower-bound thresholds: count > 50 yields `highly_active`,
50 >= count > 20 yields `active`, 20 >= count > 5 yields `moderate`,
otherwise `light`. -/
theorem c1_activity_pattern (d : AllData) (t : Trends)
    (h : identify_trends d = .ok t) :
    (t.activity_pattern = pystr "highly_active" ∨
     t.activity_pattern = pystr "active" ∨
     t.activity_pattern = pystr "moderate" ∨
     t.activity_pattern = pystr "light") ∧
    (t.activity_pattern = pystr "highly_active" ↔ 50 < d.activity.commits) ∧
    (t.activity_pattern = pystr "active" ↔
      (20 < d.activity.commits ∧ d.activity.commits ≤ 50)) ∧
    (t.activity_pattern = pystr "moderate" ↔
      (5 < d.activity.commits ∧ d.activity.commits ≤ 20)) ∧
    (t.activity_pattern = pystr "light" ↔ d.activity.commits ≤ 5) := by
  rw [(identify_trends_ok h).2.2.1]
  generalize d.activity.commits = c
  unfold activityPattern
  split_ifs with h1 h2 h3
  · exact ⟨Or.inl rfl,
      ⟨fun _ => h1, fun _ => rfl⟩,
      ⟨fun hx => absurd hx (by decide), fun hx => absurd h1 (by omega)⟩,
      ⟨fun hx => absurd hx (by decide), fun hx => absurd h1 (by omega)⟩,
      ⟨fun hx => absurd hx (by decide), fun hx => absurd h1 (by omega)⟩⟩
  · exact ⟨Or.inr (Or.inl rfl),
      ⟨fun hx => absurd hx (by decide), fun hx => absurd hx h1⟩,
      ⟨fun _ => ⟨h2, by omega⟩, fun _ => rfl⟩,
      ⟨fun hx => absurd hx (by decide), fun hx => absurd h2 (by omega)⟩,
      ⟨fun hx => absurd hx (by decide), fun hx => absurd h2 (by omega)⟩⟩
  · exact ⟨Or.inr (Or.inr (Or.inl rfl)),
      ⟨fun hx => absurd hx (by decide), fun hx => absurd hx h1⟩,
      ⟨fun hx => absurd hx (by decide), fun hx => absurd h2 (by omega)⟩,
      ⟨fun _ => ⟨h3, by omega⟩, fun _ => rfl⟩,
      ⟨fun hx => absurd hx (by decide), fun hx => absurd h3 (by omega)⟩⟩
  · exact ⟨Or.inr (Or.inr (Or.inr rfl)),
      ⟨fun hx => absurd hx (by decide), fun hx => absurd hx h1⟩,
      ⟨fun hx => absurd hx (by decide), fun hx => absurd h2 (by omega)⟩,
      ⟨fun hx => absurd hx (by decide), fun hx => absurd h3 (by omega)⟩,
      ⟨fun _ => by omega, fun _ => rfl⟩⟩

/-- Input with exactly 51 recent commits. -/
def c1Data51 : AllData := { activity := { commits := 51 }, user_info := {} }

/-- Input with exactly 50 recent commits. -/
def c1Data50 : AllData := { activity := { commits := 50 }, user_info := {} }

/-- The trends computed on `c1Data51`. -/
def c1Trends51 : Trends := (identify_trends c1Data51).toOption.getD defaultTrends

/-- The trends computed on `c1Data50`. -/
def c1Trends50 : Trends := (identify_trends c1Data50).toOption.getD defaultTrends

/-- Witness for C1 at the boundary inputs 51 (`highly_active`) and 50
(`active`). -/
theorem c1_activity_pattern_witness :
    (((c1Trends51.activity_pattern = pystr "highly_active" ∨
       c1Trends51.activity_pattern = pystr "active" ∨
       c1Trends51.activity_pattern = pystr "moderate" ∨
       c1Trends51.activity_pattern = pystr "light") ∧
      (c1Trends51.activity_pattern = pystr "highly_active" ↔
        50 < c1Data51.activity.commits) ∧
      (c1Trends51.activity_pattern = pystr "active" ↔
        (20 < c1Data51.activity.commits ∧ c1Data51.activity.commits ≤ 50)) ∧
      (c1Trends51.activity_pattern = pystr "moderate" ↔
        (5 < c1Data51.activity.commits ∧ c1Data51.activity.commits ≤ 20)) ∧
      (c1Trends51.activity_pattern = pystr "light" ↔
        c1Data51.activity.commits ≤ 5)) ∧
     ((c1Trends50.activity_pattern = pystr "highly_active" ∨
       c1Trends50.activity_pattern = pystr "active" ∨
       c1Trends50.activity_pattern = pystr "moderate" ∨
       c1Trends50.activity_pattern = pystr "light") ∧
      (c1Trends50.activity_pattern = pystr "highly_active" ↔
        50 < c1Data50.activity.commits) ∧
      (c1Trends50.activity_pattern = pystr "active" ↔
        (20 < c1Data50.activity.commits ∧ c1Data50.activity.commits ≤ 50)) ∧
      (c1Trends50.activity_pattern = pystr "moderate" ↔
        (5 < c1Data50.activity.commits ∧ c1Data50.activity.commits ≤ 20)) ∧
      (c1Trends50.activity_pattern = pystr "light" ↔
        c1Data50.activity.commits ≤ 5))) ∧
    c1Trends51.activity_pattern = pystr "highly_active" ∧
    c1Trends50.activity_pattern = pystr "active" :=
  ⟨⟨c1_activity_pattern c1Data51 c1Trends51 (by rfl),
    c1_activity_pattern c1Data50 c1Trends50 (by rfl)⟩, by decide, by decide⟩

/-- A push event dated 2024-03-10T12:00:00Z with two commits on an owned
repository. -/
def c3Event : RawEvent :=
  { created_at := pystr "2024-03-10T12:00:00Z",
    type := pystr "PushEvent",
    repo_name := pystr "fabioluciano/x",
    payload := some { commits := [{ message := some (pystr "fix") },
                                  { message := some (pystr "feat") }] } }

/-- A clock reading shortly after the event (the event falls inside the
30-day window). -/
def c3NowA : Int := 1710072010

/-- A clock reading 31 days later (the event falls outside the window). -/
def c3NowB : Int := 1710072010 + 31 * 86400

/-- Claim C3: the aggregation engine is claimed to take an injected
current-time reference and never read the system clock implicitly; the source
instead calls `datetime.now()` inside `analyze_recent_activity`
(src/github_analyzer.py:137) and `extract_comprehensive_data`
(src/analysis.py:116-117).  This theorem shows the output genuinely depends on
that clock reading: the same event list and owned-repo set produce different
commit counts under two different clock values, so the function is not
determined by the explicit code inputs alone. -/
theorem c3_clock_dependence :
    (analyze_recent_activity [c3Event] [pystr "fabioluciano/x"] c3NowA).commits = 2 ∧
    (analyze_recent_activity [c3Event] [pystr "fabioluciano/x"] c3NowB).commits = 0 ∧
    (analyze_recent_activity [c3Event] [pystr "fabioluciano/x"] c3NowA).commits ≠
      (analyze_recent_activity [c3Event] [pystr "fabioluciano/x"] c3NowB).commits :=
  ⟨rfl, rfl, by decide⟩

/-- A well-typed starred item (all fields present with their declared types)
whose single topic string `"a|a"` contains the join separator. -/
def c4Star : StarItem :=
  { starred_at := pystr "2024-03-10T12:00:00Z",
    repo := { full_name := pystr "octo/widgets",
              html_url := pystr "https://example.com/octo/widgets",
              updated_at := pystr "2024-03-10T12:00:00Z",
              topics := some [pystr "a|a"] } }

/-- The clock value for the C4 run (the star is recent). -/
def c4Now : Int := 1710072010

/-- Claim C4: the aggregation engine is claimed total on well-typed input.
On the well-typed input `c4Star` (one recently starred repository whose topic
string is `"a|a"`), `extract_comprehensive_data` succeeds, but
`identify_trends` evaluates `recent_count / total_count` with
`total_count = 0` — the recovered topic `"a"` (from splitting the joined
topics field) never occurs in `all_topics` — which in Python raises
`ZeroDivisionError` (src/analysis.py:57).  The composed run errors. -/
theorem c4_zero_division :
    (∃ d, extract_comprehensive_data [c4Star] [] {} {} c4Now = .ok d) ∧
    (extract_comprehensive_data [c4Star] [] {} {} c4Now).bind identify_trends =
      .error () :=
  ⟨⟨(extract_comprehensive_data [c4Star] [] {} {} c4Now).toOption.getD
      defaultAllData, rfl⟩, rfl⟩

/-- Claim C5 counterexample: with no API key configured the generator returns
`None` (src/gemini_generator.py:26-28) — the templated fallback is NOT used —
and `update_readme` then writes nothing and returns `False`
(src/data_exporter.py:14-16).  A run with no Gemini API key therefore ends
with no README output, contrary to the claim. -/
theorem c5_missing_key_counterexample :
    generate_profile_content false (.ok (pystr "# readme")) defaultAllData
      defaultTrends = none ∧
    update_readme (generate_profile_content false (.ok (pystr "# readme"))
      defaultAllData defaultTrends) = ([], false) :=
  ⟨rfl, rfl⟩

/-- Claim C5 (amended): if the generative-text service call itself raises, the
failure is caught and the deterministic templated fallback summary is
substituted for both languages, and all three README files are written with
it; but when the API credential is missing the generator returns no content
and no README is written. -/
theorem c5_service_failure_fallback (d : AllData) (t : Trends) (err : PyStr) :
    generate_profile_content true (.error err) d t =
      some { ptBr := generateFallbackReadme d t,
             en := generateFallbackReadme d t } ∧
    update_readme (generate_profile_content true (.error err) d t) =
      ([(pystr "./README.pt-br.md", generateFallbackReadme d t),
        (pystr "./README.en.md", generateFallbackReadme d t),
        (pystr "./README.md", generateFallbackReadme d t)], true) :=
  ⟨rfl, rfl⟩

/-- Claim C6: no repository record whose fork flag is true contributes an
entry to `own_repos`: every entry of the extracted `own_repos` list arises
from an input record whose `fork` field (through the `safe_get` default) is
false. -/
theorem c6_fork_exclusion (starred : List StarItem) (user_repos : List RawRepo)
    (act : ActivitySummary) (ui : UserInfo) (now : Int) (d : AllData)
    (h : extract_comprehensive_data starred user_repos act ui now = .ok d) :
    ∀ e ∈ d.own_repos, ∃ r ∈ user_repos,
      r.fork.getD false = false ∧ mkOwnInfo now r = .ok e := by
  unfold extract_comprehensive_data at h
  split at h
  · cases h
  · rename_i a1 h1
    split at h
    · cases h
    · rename_i a2 h2
      simp only [Except.ok.injEq] at h
      intro e he
      rw [← h] at he
      have he2 : e ∈ sortOwnRepos a2.own_repos := he
      rw [sortOwnRepos, mem_sortDescBy] at he2
      rcases ownLoop_mem h2 e he2 with h3 | h3
      · rw [starredLoop_own_repos h1] at h3
        simp [initAllData] at h3
      · exact h3

/-- A non-fork owned repository (its `fork` field is absent, defaulting to
false). -/
def c6Repo : RawRepo :=
  { full_name := pystr "fabioluciano/tools",
    html_url := pystr "https://example.com/tools",
    updated_at := pystr "2024-03-01T00:00:00Z" }

/-- The clock value for the C6 run. -/
def c6Now : Int := 1710072010

/-- The extracted data of the C6 run. -/
def c6Data : AllData :=
  (extract_comprehensive_data [] [c6Repo] {} {} c6Now).toOption.getD
    defaultAllData

/-- Witness for C6: a concrete run with one non-fork owned repository; its
single output entry comes from that record. -/
theorem c6_fork_exclusion_witness :
    c6Data.own_repos.length = 1 ∧
    ∀ e ∈ c6Data.own_repos, ∃ r ∈ [c6Repo],
      r.fork.getD false = false ∧ mkOwnInfo c6Now r = .ok e :=
  ⟨rfl, c6_fork_exclusion [] [c6Repo] {} {} c6Now c6Data (by rfl)⟩

/-- Claim C8: an event whose `created_at` does not parse is skipped without
effect: the activity summary over any event list containing it equals the
summary over the same list with that event removed. -/
theorem c8_malformed_timestamp_skipped (l1 l2 : List RawEvent) (e : RawEvent)
    (own : List PyStr) (now : Int) (h : strptimeZ e.created_at = none) :
    analyze_recent_activity (l1 ++ e :: l2) own now =
      analyze_recent_activity (l1 ++ l2) own now := by
  unfold analyze_recent_activity
  rw [List.foldl_append, List.foldl_append, List.foldl_cons, stepEvent_skip h]

/-- An event with `created_at = "not-a-date"`. -/
def c8Bad : RawEvent :=
  { created_at := pystr "not-a-date",
    type := pystr "PushEvent",
    repo_name := pystr "fabioluciano/x",
    payload := some { commits := [{ message := some (pystr "m") }] } }

/-- A well-formed push event used alongside `c8Bad`. -/
def c8Good : RawEvent :=
  { created_at := pystr "2024-03-10T12:00:00Z",
    type := pystr "PushEvent",
    repo_name := pystr "fabioluciano/x",
    payload := some { commits := [{ message := some (pystr "ok") }] } }

/-- The clock value for the C8 run. -/
def c8Now : Int := 1710072010

/-- Witness for C8: `"not-a-date"` fails to parse, and the summary over
`[c8Bad, c8Good]` equals the summary over `[c8Good]`. -/
theorem c8_malformed_timestamp_skipped_witness :
    strptimeZ c8Bad.created_at = none ∧
    analyze_recent_activity ([] ++ c8Bad :: [c8Good]) [pystr "fabioluciano/x"]
        c8Now =
      analyze_recent_activity ([] ++ [c8Good]) [pystr "fabioluciano/x"] c8Now :=
  ⟨rfl, c8_malformed_timestamp_skipped [] [c8Good] c8Bad
    [pystr "fabioluciano/x"] c8Now rfl⟩

/-- A recent push event with 10 commits on an owned repository. -/
def c7Push : RawEvent :=
  { created_at := pystr "2024-03-10T12:00:00Z",
    type := pystr "PushEvent",
    repo_name := pystr "fabioluciano/x",
    payload := some { commits := List.replicate 10 { message := some (pystr "m") } } }

/-- The owned-repo name set for the C7 runs. -/
def c7Own : List PyStr := [pystr "fabioluciano/x"]

/-- The clock value for the C7 runs. -/
def c7Now : Int := 1710072010

/-- Claim C7 counterexample: two own-repo push events of 10 commits each
yield a `recent_commits_detail` list of 20 entries — the per-event slice
`commits[:max_recent_commits]` (src/github_analyzer.py:169) caps each event's
contribution but NOT the final list, so the detail list is not bounded by
`max_recent_commits` as the claim states. -/
theorem c7_detail_exceeds_max_counterexample :
    (analyze_recent_activity [c7Push, c7Push] c7Own
        c7Now).recent_commits_detail.length = 20 ∧
    max_recent_commits = 10 ∧
    ¬ (analyze_recent_activity [c7Push, c7Push] c7Own
        c7Now).recent_commits_detail.length ≤ max_recent_commits :=
  ⟨rfl, rfl, by decide⟩

/-- Claim C7 (amended): in the activity fold, every push event inside the
window adds the full length of its commit list to the commit counter and its
repo name to the worked-on set; commit details are appended only for events
whose repo belongs to the user, with at most `max_recent_commits` details per
push event — so the final detail list is bounded by `max_recent_commits`
times the number of own-repo recent push events, not by `max_recent_commits`
itself. -/
theorem c7_push_fold_amended (events : List RawEvent) (own : List PyStr)
    (now : Int) :
    (analyze_recent_activity events own now).commits =
      (events.map (fun e =>
        if isRecentPush now e then (eventCommits e).length else 0)).sum ∧
    (∀ e ∈ events, isRecentPush now e = true →
      e.repo_name ∈ (analyze_recent_activity events own now).repos_worked_on) ∧
    (∀ x ∈ (analyze_recent_activity events own now).recent_commits_detail,
      x.repo ∈ own) ∧
    (analyze_recent_activity events own now).recent_commits_detail.length ≤
      max_recent_commits * (events.filter (isOwnRecentPush own now)).length := by
  refine ⟨?_, ?_, ?_, ?_⟩
  · rw [analyze_recent_activity, foldl_stepEvent_commits]
    simp
  · intro e he hr
    exact foldl_stepEvent_worked_on_mem own now events {} e he hr
  · intro x hx
    rw [analyze_recent_activity, foldl_stepEvent_details] at hx
    simp only [List.nil_append] at hx
    rcases List.mem_flatMap.mp hx with ⟨e, _, hx2⟩
    exact detailContribution_repo_mem own now e x hx2
  · rw [analyze_recent_activity, foldl_stepEvent_details]
    simp only [List.nil_append, List.length_flatMap]
    refine sum_ite_le_mul_count (isOwnRecentPush own now) max_recent_commits
      (fun e => (detailContribution own now e).length) ?_ ?_ events
    · intro b hb
      have hlen := detailContribution_length own now b
      rw [hb] at hlen
      simpa using hlen
    · intro b
      show (detailContribution own now b).length ≤ max_recent_commits
      have hlen := detailContribution_length own now b
      by_cases hp : isOwnRecentPush own now b
      · rw [if_pos hp] at hlen
        exact hlen
      · rw [if_neg hp] at hlen
        omega

/-- Witness for C7 (amended) at the concrete two-event input, together with
the concrete commit count. -/
theorem c7_push_fold_amended_witness :
    ((analyze_recent_activity [c7Push, c7Push] c7Own c7Now).commits =
      (([c7Push, c7Push]).map (fun e =>
        if isRecentPush c7Now e then (eventCommits e).length else 0)).sum ∧
    (∀ e ∈ [c7Push, c7Push], isRecentPush c7Now e = true →
      e.repo_name ∈
        (analyze_recent_activity [c7Push, c7Push] c7Own c7Now).repos_worked_on) ∧
    (∀ x ∈ (analyze_recent_activity [c7Push, c7Push] c7Own
        c7Now).recent_commits_detail, x.repo ∈ c7Own) ∧
    (analyze_recent_activity [c7Push, c7Push] c7Own
        c7Now).recent_commits_detail.length ≤
      max_recent_commits *
        (([c7Push, c7Push]).filter (isOwnRecentPush c7Own c7Now)).length) ∧
    (analyze_recent_activity [c7Push, c7Push] c7Own c7Now).commits = 20 :=
  ⟨c7_push_fold_amended [c7Push, c7Push] c7Own c7Now, rfl⟩

/-- Claim C9: `growing_languages` has at most 5 entries, every entry occurs at
least twice among the recent-stars languages, and entries are in weakly
descending order of recent frequency. -/
theorem c9_growing_languages (d : AllData) (t : Trends)
    (h : identify_trends d = .ok t) :
    t.growing_languages.length ≤ 5 ∧
    (∀ l ∈ t.growing_languages, 2 ≤ (recentLanguagesList d).count l) ∧
    t.growing_languages.Pairwise (fun a b =>
      (recentLanguagesList d).count b ≤ (recentLanguagesList d).count a) := by
  rw [(identify_trends_ok h).2.1]
  unfold growingLanguages
  refine ⟨?_, ?_, ?_⟩
  · rw [List.length_map]
    exact le_trans (List.length_filter_le ..)
      (mostCommon_length 5 (recentLanguagesList d))
  · intro l hl
    rcases List.mem_map.mp hl with ⟨kc, hkc, rfl⟩
    rcases List.mem_filter.mp hkc with ⟨hmc, hge⟩
    have h2 := (mostCommon_mem hmc).1
    rw [← h2]
    exact of_decide_eq_true hge
  · rw [List.pairwise_map]
    have hp := mostCommon_pairwise 5 (recentLanguagesList d)
    have hp2 : List.Pairwise (fun a b => b.2 ≤ a.2)
        ((mostCommon 5 (recentLanguagesList d)).filter
          (fun kc => decide (kc.2 ≥ 2))) :=
      List.Pairwise.sublist (List.filter_sublist _) hp
    refine hp2.imp_of_mem ?_
    intro a b ha hb hr
    have ha2 := (mostCommon_mem (List.mem_of_mem_filter ha)).1
    have hb2 := (mostCommon_mem (List.mem_of_mem_filter hb)).1
    rw [← ha2, ← hb2]
    exact hr

/-- A recent star whose repository language is Go. -/
def c9StarA : StarItem :=
  { starred_at := pystr "2024-03-10T12:00:00Z",
    repo := { full_name := pystr "octo/alpha",
              html_url := pystr "https://example.com/alpha",
              updated_at := pystr "2024-03-10T12:00:00Z",
              language := some (pystr "go") } }

/-- A second recent star whose repository language is Go. -/
def c9StarB : StarItem :=
  { starred_at := pystr "2024-03-09T12:00:00Z",
    repo := { full_name := pystr "octo/beta",
              html_url := pystr "https://example.com/beta",
              updated_at := pystr "2024-03-09T12:00:00Z",
              language := some (pystr "go") } }

/-- The clock value for the C9 run. -/
def c9Now : Int := 1710072010

/-- The extracted data of the C9 run. -/
def c9Data : AllData :=
  (extract_comprehensive_data [c9StarA, c9StarB] [] {} {} c9Now).toOption.getD
    defaultAllData

/-- The trends of the C9 run. -/
def c9Trends : Trends := (identify_trends c9Data).toOption.getD defaultTrends

/-- Witness for C9: two recent Go stars produce `growing_languages = ["go"]`,
satisfying the bounds. -/
theorem c9_growing_languages_witness :
    c9Trends.growing_languages = [pystr "go"] ∧
    (c9Trends.growing_languages.length ≤ 5 ∧
     (∀ l ∈ c9Trends.growing_languages,
       2 ≤ (recentLanguagesList c9Data).count l) ∧
     c9Trends.growing_languages.Pairwise (fun a b =>
       (recentLanguagesList c9Data).count b ≤
         (recentLanguagesList c9Data).count a)) :=
  ⟨rfl, c9_growing_languages c9Data c9Trends (by rfl)⟩

/-- A recent star whose single topic string `"a|a"` contains the join
separator. -/
def c2StarPipe : StarItem :=
  { starred_at := pystr "2024-03-10T12:00:00Z",
    repo := { full_name := pystr "octo/one",
              html_url := pystr "https://example.com/one",
              updated_at := pystr "2024-03-10T12:00:00Z",
              topics := some [pystr "a|a"] } }

/-- An old (non-recent) star with the genuine topic `"a"`. -/
def c2StarOld : StarItem :=
  { starred_at := pystr "2023-01-10T12:00:00Z",
    repo := { full_name := pystr "octo/two",
              html_url := pystr "https://example.com/two",
              updated_at := pystr "2023-01-10T12:00:00Z",
              topics := some [pystr "a"] } }

/-- The clock value for the C2 runs. -/
def c2Now : Int := 1710072010

/-- The extracted data of the C2 counterexample run. -/
def c2BadData : AllData :=
  (extract_comprehensive_data [c2StarPipe, c2StarOld] [] {} {}
    c2Now).toOption.getD defaultAllData

/-- The trends of the C2 counterexample run. -/
def c2BadTrends : Trends :=
  (identify_trends c2BadData).toOption.getD defaultTrends

/-- Claim C2 counterexample: on the well-typed input `[c2StarPipe, c2StarOld]`
the pipeline succeeds and produces the emerging-topic entry
`{topic := "a", recent_count := 2, total_count := 1}` — splitting the joined
topics field of the recent star counts `"a"` twice, while `all_topics` holds
the raw strings `"a|a"` and `"a"` — so `recent_count ≤ total_count` fails. -/
theorem c2_recent_exceeds_total_counterexample :
    extract_comprehensive_data [c2StarPipe, c2StarOld] [] {} {} c2Now =
      .ok c2BadData ∧
    identify_trends c2BadData = .ok c2BadTrends ∧
    c2BadTrends.emerging_topics =
      [{ topic := pystr "a", recent_count := 2, total_count := 1 }] ∧
    ∃ e ∈ c2BadTrends.emerging_topics, e.total_count < e.recent_count :=
  ⟨rfl, rfl, rfl, by decide⟩

/-- Claim C2 (amended): provided no topic string of any starred repository
contains the `"|"` separator (so the join/split encoding is faithful), every
`emerging_topics` entry has exact ratio `recent_count / total_count`
strictly above 3/10, satisfies `recent_count ≤ total_count`, and its topic is
drawn from the 10 most frequent recent topics. -/
theorem c2_emerging_topics_amended (starred : List StarItem)
    (user_repos : List RawRepo) (act : ActivitySummary) (ui : UserInfo)
    (now : Int) (d : AllData) (t : Trends)
    (hpipe : ∀ item ∈ starred, ∀ tp ∈ item.repo.topics.getD [], '|' ∉ tp)
    (hx : extract_comprehensive_data starred user_repos act ui now = .ok d)
    (ht : identify_trends d = .ok t) :
    ∀ e ∈ t.emerging_topics,
      (e.recent_count : ℚ) / (e.total_count : ℚ) > 3 / 10 ∧
      e.recent_count ≤ e.total_count ∧
      e.topic ∈ (mostCommon 10 (recentTopicsList d)).map Prod.fst := by
  intro e he
  rcases emergingFold_mem (identify_trends_ok ht).1 e he with
    ⟨p, hp, htp, hrc, htc, hnz, hrat⟩
  have hcnt := (mostCommon_mem hp).1
  have hinv := extract_recentLeTotal hpipe hx p.1
  refine ⟨?_, ?_, ?_⟩
  · have htcpos : (0 : ℚ) < (e.total_count : ℚ) := by
      rw [htc]
      exact_mod_cast Nat.pos_of_ne_zero hnz
    rw [gt_iff_lt, div_lt_div_iff₀ (by norm_num) htcpos]
    have hn : 3 * e.total_count < 10 * e.recent_count := by
      rw [htc, hrc]
      omega
    have hq : ((3 * e.total_count : Nat) : ℚ) < ((10 * e.recent_count : Nat) : ℚ) :=
      Nat.cast_lt.mpr hn
    push_cast at hq
    linarith
  · rw [hrc, htc, hcnt]
    exact hinv
  · rw [htp]
    exact List.mem_map.mpr ⟨p, hp, rfl⟩

/-- A recent star with the pipe-free topic `"k8s"`. -/
def c2GoodStar : StarItem :=
  { starred_at := pystr "2024-03-10T12:00:00Z",
    repo := { full_name := pystr "octo/kube",
              html_url := pystr "https://example.com/kube",
              updated_at := pystr "2024-03-10T12:00:00Z",
              topics := some [pystr "k8s"] } }

/-- The extracted data of the C2 witness run. -/
def c2GoodData : AllData :=
  (extract_comprehensive_data [c2GoodStar] [] {} {} c2Now).toOption.getD
    defaultAllData

/-- The trends of the C2 witness run. -/
def c2GoodTrends : Trends :=
  (identify_trends c2GoodData).toOption.getD defaultTrends

/-- Witness for C2 (amended): a concrete pipe-free run with a non-empty
emerging-topics list. -/
theorem c2_emerging_topics_amended_witness :
    c2GoodTrends.emerging_topics.length = 1 ∧
    ∀ e ∈ c2GoodTrends.emerging_topics,
      (e.recent_count : ℚ) / (e.total_count : ℚ) > 3 / 10 ∧
      e.recent_count ≤ e.total_count ∧
      e.topic ∈ (mostCommon 10 (recentTopicsList c2GoodData)).map Prod.fst :=
  ⟨rfl, c2_emerging_topics_amended [c2GoodStar] [] {} {} c2Now c2GoodData
    c2GoodTrends (by decide) (by rfl) (by rfl)⟩

/-- Claim C10: if every topic string of every starred repository is non-empty
and pipe-free, then every topic counted in the recent-stars bucket occurs in
the all-time topic list at least as often (so each `total_count` denominator
is at least 1), and `identify_trends` completes without the division ever
seeing a zero denominator. -/
theorem c10_no_zero_division (starred : List StarItem)
    (user_repos : List RawRepo) (act : ActivitySummary) (ui : UserInfo)
    (now : Int) (d : AllData)
    (hok : ∀ item ∈ starred, ∀ tp ∈ item.repo.topics.getD [],
      tp ≠ [] ∧ '|' ∉ tp)
    (hx : extract_comprehensive_data starred user_repos act ui now = .ok d) :
    (∀ p ∈ mostCommon 10 (recentTopicsList d),
      1 ≤ p.2 ∧ p.2 ≤ d.all_topics.count p.1 ∧ d.all_topics.count p.1 ≠ 0) ∧
    ∃ t, identify_trends d = .ok t := by
  have hpipe : ∀ item ∈ starred, ∀ tp ∈ item.repo.topics.getD [], '|' ∉ tp :=
    fun it hit tp htp => (hok it hit tp htp).2
  have hinv := extract_recentLeTotal hpipe hx
  have hmem : ∀ p ∈ mostCommon 10 (recentTopicsList d),
      1 ≤ p.2 ∧ p.2 ≤ d.all_topics.count p.1 ∧ d.all_topics.count p.1 ≠ 0 := by
    intro p hp
    rcases mostCommon_mem hp with ⟨hc, hm⟩
    have h1 : 1 ≤ (recentTopicsList d).count p.1 := List.count_pos_iff.mpr hm
    have h2 := hinv p.1
    refine ⟨by omega, by omega, by omega⟩
  refine ⟨hmem, ?_⟩
  rcases emergingFold_ok (fun p hp => (hmem p hp).2.2) with ⟨es, hes⟩
  refine ⟨{ emerging_topics := es, growing_languages := growingLanguages d,
            focus_shift := none,
            activity_pattern := activityPattern d.activity.commits,
            expertise_areas := expertiseAreas d }, ?_⟩
  unfold identify_trends
  rw [hes]

/-- A recent star with the single non-empty pipe-free topic `"devops"`. -/
def c10Star : StarItem :=
  { starred_at := pystr "2024-03-10T12:00:00Z",
    repo := { full_name := pystr "octo/infra",
              html_url := pystr "https://example.com/infra",
              updated_at := pystr "2024-03-10T12:00:00Z",
              topics := some [pystr "devops"] } }

/-- The clock value for the C10 run. -/
def c10Now : Int := 1710072010

/-- The extracted data of the C10 run. -/
def c10Data : AllData :=
  (extract_comprehensive_data [c10Star] [] {} {} c10Now).toOption.getD
    defaultAllData

/-- Witness for C10 at a concrete run with one non-empty pipe-free topic. -/
theorem c10_no_zero_division_witness :
    (∀ item ∈ [c10Star], ∀ tp ∈ item.repo.topics.getD [],
      tp ≠ [] ∧ '|' ∉ tp) ∧
    ((∀ p ∈ mostCommon 10 (recentTopicsList c10Data),
      1 ≤ p.2 ∧ p.2 ≤ c10Data.all_topics.count p.1 ∧
        c10Data.all_topics.count p.1 ≠ 0) ∧
     ∃ t, identify_trends c10Data = .ok t) :=
  ⟨by decide, c10_no_zero_division [c10Star] [] {} {} c10Now c10Data
    (by decide) (by rfl)⟩
